import Mathlib

/-!
Shallow embedding of `src/scraper.py` (Salesforce-Release-Note-Scraper):
the content-selection and HTML-tree-to-Markdown conversion engine.

The input of the engine is a parsed document tree (produced externally by
BeautifulSoup); we embed it as a forest of nodes.  Python string
operations (`str.strip`, `str.rstrip`, `str.join`, `textwrap.dedent`) are
embedded as executable Lean functions over `List Char` below, so that all
definitions reduce inside the kernel.

Library semantics relied on by the embedding (BeautifulSoup 4):
* `Tag.__bool__` returns `True` unconditionally ("A tag is non-None even
  if it has no contents"), so `if candidate:` over `Optional[Tag]` is a
  `None` test;
* `soup.find(name)` returns the first element with that tag name in
  document (pre-order) order, `soup.find("div", id="content")` the first
  `div` whose `id` attribute equals `"content"`, and `soup.body` the
  first `body` element;
* `tag.get_text(sep)` joins the text of every descendant text node, in
  document order, with `sep`; with `strip=True` each text run is stripped
  and empty runs are skipped;
* `tag.find_all(name, recursive=False)` lists the direct element children
  with that name, and `tag.find_all(names)` all descendant elements with
  one of the names, in document order.
-/

/-! Element and text nodes of the parsed document tree (the data model of
the external parser: a tag name, an attribute list with unique keys, and
an ordered list of children; text nodes are plain strings). -/
mutual
inductive Node where
  | text : String → Node
  | elem : (tag : String) → (attrs : List (String × String)) → (children : NodeList) → Node
deriving Repr, DecidableEq
inductive NodeList where
  | nil : NodeList
  | cons : Node → NodeList → NodeList
deriving Repr, DecidableEq
end

/-- Conversion of a plain list of nodes into a `NodeList` (construction
helper for concrete documents). -/
def nl : List Node → NodeList
  | [] => .nil
  | n :: rest => .cons n (nl rest)

/-! Whitespace characters stripped by Python's `str.strip()` (ASCII part;
the inputs of this development are ASCII). -/
def isPySpace (c : Char) : Bool :=
  c == ' ' || c == '\t' || c == '\n' || c == '\r' || c == '\x0b' || c == '\x0c'

/-- Python `str.strip()`: remove leading and trailing whitespace. -/
def pyStrip (s : String) : String :=
  String.mk (((s.data.dropWhile isPySpace).reverse.dropWhile isPySpace).reverse)

/-- Python `str.rstrip()`: remove trailing whitespace. -/
def pyRStrip (s : String) : String :=
  String.mk ((s.data.reverse.dropWhile isPySpace).reverse)

/-- Python `"".join(l)`: concatenation of a list of strings. -/
def concatList : List String → String
  | [] => ""
  | s :: rest => s ++ concatList rest

/-- Python `sep.join(l)`. -/
def joinSep (sep : String) : List String → String
  | [] => ""
  | [s] => s
  | s :: rest => s ++ sep ++ joinSep sep rest

/-- Attribute lookup, `tag.get(key)`: first binding of `key` in the
attribute list (keys are unique in a parsed tree). -/
def attrLookup (key : String) : List (String × String) → Option String
  | [] => none
  | (k, v) :: rest => if k = key then some v else attrLookup key rest

/-! BeautifulSoup `soup.find(name)` over a node / a forest: the first
element (pre-order, the element itself included) whose tag is `name`. -/
mutual
def findTagN (name : String) : Node → Option Node
  | .text _ => none
  | .elem t a c =>
    if t = name then some (.elem t a c) else findTagL name c
def findTagL (name : String) : NodeList → Option Node
  | .nil => none
  | .cons n rest =>
    match findTagN name n with
    | some r => some r
    | none => findTagL name rest
end

/-! BeautifulSoup `soup.find("div", id="content")`: the first `div`
element whose `id` attribute equals `"content"`. -/
mutual
def findDivContentN : Node → Option Node
  | .text _ => none
  | .elem t a c =>
    if t = "div" ∧ attrLookup "id" a = some "content" then some (.elem t a c)
    else findDivContentL c
def findDivContentL : NodeList → Option Node
  | .nil => none
  | .cons n rest =>
    match findDivContentN n with
    | some r => some r
    | none => findDivContentL rest
end

/-! Specification-side reading of the third candidate ("the first
element with identifier attribute equal to content", any tag name): used
only to compare the specification's wording with the code, which
restricts this candidate to `div` elements. -/
mutual
def specFindIdContentN : Node → Option Node
  | .text _ => none
  | .elem t a c =>
    if attrLookup "id" a = some "content" then some (.elem t a c)
    else specFindIdContentL c
def specFindIdContentL : NodeList → Option Node
  | .nil => none
  | .cons n rest =>
    match specFindIdContentN n with
    | some r => some r
    | none => specFindIdContentL rest
end

/-! Error message of `extract_main_content` (`ValueError`, the
`NotFoundError` of the specification). -/
def contentErrMsg : String := "Could not find a content container in the provided HTML"

/-- Candidate list of `extract_main_content` (scraper.py lines 18-23), in
source order: first `article`, first `main`, first `div#content`, first
`body`. -/
def candidates (doc : NodeList) : List (Option Node) :=
  [findTagL "article" doc, findTagL "main" doc, findDivContentL doc, findTagL "body" doc]

/-- Content locator `extract_main_content` (scraper.py lines 15-29): the
loop `for candidate in candidates: if candidate: return candidate`
returns the first candidate that is not `None` (a BeautifulSoup `Tag` is
always truthy), and raises `ValueError` when every candidate is `None`. -/
def extract_main_content (doc : NodeList) : Except String Node :=
  match (candidates doc).find? Option.isSome with
  | some (some n) => Except.ok n
  | _ => Except.error contentErrMsg

/-! Descendant text runs of a node, in document order (the strings that
BeautifulSoup's `get_text` joins; for an element these are the runs of
its descendants, for a text node the run itself). -/
mutual
def stringsN : Node → List String
  | .text s => [s]
  | .elem _ _ c => stringsL c
def stringsL : NodeList → List String
  | .nil => []
  | .cons n rest => stringsN n ++ stringsL rest
end

/-! BeautifulSoup `node.get_text(sep)`: descendant text runs joined by
`sep`. -/
def get_text_sep (sep : String) (n : Node) : String :=
  joinSep sep (stringsN n)

/-- BeautifulSoup `node.get_text(strip=True)`: each descendant text run
is stripped, empty results are skipped, and the remainder is concatenated
(separator `""`). -/
def get_text_strip (n : Node) : String :=
  concatList (((stringsN n).map pyStrip).filter (fun s => !(s == "")))

/-! Inline renderer `inline_to_markdown` (scraper.py lines 32-51), with
`inlineL` embedding `''.join(inline_to_markdown(c) for c in node.children)`. -/
mutual
def inline_to_markdown : Node → String
  | .text s => s
  | .elem name attrs children =>
    if name = "strong" ∨ name = "b" then "**" ++ inlineL children ++ "**"
    else if name = "em" ∨ name = "i" then "*" ++ inlineL children ++ "*"
    else if name = "code" then "`" ++ get_text_strip (.elem name attrs children) ++ "`"
    else if name = "a" then
      let href := pyStrip ((attrLookup "href" attrs).getD "")
      let text := pyStrip (inlineL children)
      let text := if text = "" then (if href = "" then "link" else href) else text
      if href = "" then text else "[" ++ text ++ "](" ++ href ++ ")"
    else if name = "br" then "\n"
    else inlineL children
def inlineL : NodeList → String
  | .nil => ""
  | .cons n rest => inline_to_markdown n ++ inlineL rest
end

/-! Python `"    " * n`: the indentation string of `block_to_markdown`. -/
def indentStr : Nat → String
  | 0 => ""
  | k + 1 => "    " ++ indentStr k

/-- Python `"#" * n`: the heading marker. -/
def hashes : Nat → String
  | 0 => ""
  | k + 1 => "#" ++ hashes k

/-- Heading level `int(node.name[1])` for the tags `h1` .. `h6`: numeric
value of the second character of the tag name. -/
def headingLevel (name : String) : Nat :=
  match name.data with
  | _ :: d :: _ => d.toNat - '0'.toNat
  | _ => 0

/-! Descendant `tr` elements of a node, `node.find_all("tr")`: pre-order,
the search also descending into matches. -/
mutual
def trsN : Node → List Node
  | .text _ => []
  | .elem t a c => (if t = "tr" then [Node.elem t a c] else []) ++ trsL c
def trsL : NodeList → List Node
  | .nil => []
  | .cons n rest => trsN n ++ trsL rest
end

/-! Descendant `th`/`td` elements of a node, `row.find_all(["th", "td"])`. -/
mutual
def cellsN : Node → List Node
  | .text _ => []
  | .elem t a c => (if t = "th" ∨ t = "td" then [Node.elem t a c] else []) ++ cellsL c
def cellsL : NodeList → List Node
  | .nil => []
  | .cons n rest => cellsN n ++ cellsL rest
end

/-! Cells of one table row, each rendered inline and stripped
(scraper.py line 86). -/
def rowCells (row : Node) : List String :=
  match row with
  | .text _ => []
  | .elem _ _ c => (cellsL c).map (fun cell => pyStrip (inline_to_markdown cell))

/-- Table branch of `block_to_markdown` (scraper.py lines 84-94): all
`tr` rows anywhere under the node; the first row is the header, followed
by a `---` separator of the same width, the remaining rows, and a final
empty entry. -/
def tableLines (node : Node) : List String :=
  let rows := match node with | .text _ => [] | .elem _ _ c => trsL c
  let table_data := rows.map rowCells
  match table_data with
  | [] => []
  | header :: rest =>
    [joinSep " | " header, joinSep " | " (header.map (fun _ => "---"))]
      ++ rest.map (joinSep " | ") ++ [""]

/-! Block renderer `block_to_markdown` (scraper.py lines 54-108).
`liParts` embeds the `content_parts` loop over one `li`'s direct children
(scraper.py lines 70-80), `listItemLines` the enumerated loop over the
direct `li` children (lines 68-82, the index counting only `li`s), and
`genericLines` the generic-container loop (lines 100-106).  The final
result is `"\n".join(filter(None, lines))` (line 108): empty entries are
dropped and the rest joined by single newlines. -/
mutual
def block_to_markdown : Node → Nat → String
  | .text _, _ => ""
  | .elem name attrs children, indent_level =>
    let lines : List String :=
      if name = "h1" ∨ name = "h2" ∨ name = "h3" ∨ name = "h4" ∨ name = "h5" ∨ name = "h6" then
        [hashes (headingLevel name) ++ " "
          ++ pyStrip (inline_to_markdown (.elem name attrs children)) ++ "\n"]
      else if name = "p" then
        let text := pyStrip (inline_to_markdown (.elem name attrs children))
        if text = "" then [] else [text ++ "\n"]
      else if name = "ul" ∨ name = "ol" then
        listItemLines (name = "ol") children indent_level 1 ++ [""]
      else if name = "table" then
        tableLines (.elem name attrs children)
      else if name = "pre" then
        let code_text := pyRStrip (get_text_sep "\n" (.elem name attrs children))
        if code_text = "" then [] else ["```\n" ++ code_text ++ "\n```\n"]
      else
        genericLines children indent_level
    joinSep "\n" (lines.filter (fun l => !(l == "")))
def listItemLines (ordered : Bool) : NodeList → Nat → Nat → List String
  | .nil, _, _ => []
  | .cons (Node.text _) rest, indent_level, idx => listItemLines ordered rest indent_level idx
  | .cons (Node.elem t _ lc) rest, indent_level, idx =>
    if t = "li" then
      (indentStr indent_level ++ (if ordered then Nat.repr idx ++ ". " else "- ")
        ++ pyStrip (concatList (liParts lc indent_level)))
      :: listItemLines ordered rest indent_level (idx + 1)
    else listItemLines ordered rest indent_level idx
def liParts : NodeList → Nat → List String
  | .nil, _ => []
  | .cons (Node.text s) rest, indent_level => s :: liParts rest indent_level
  | .cons (Node.elem t a cc) rest, indent_level =>
    (if t = "ul" ∨ t = "ol" then
      (let nested := block_to_markdown (.elem t a cc) (indent_level + 1)
       if nested = "" then [] else ["\n" ++ nested])
     else [inline_to_markdown (.elem t a cc)])
    ++ liParts rest indent_level
def genericLines : NodeList → Nat → List String
  | .nil, _ => []
  | .cons (Node.elem t a cc) rest, indent_level =>
    block_to_markdown (.elem t a cc) indent_level :: genericLines rest indent_level
  | .cons (Node.text s) rest, indent_level =>
    (let text := pyStrip s
     if text = "" then [] else [indentStr indent_level ++ text ++ "\n"])
    ++ genericLines rest indent_level
end

/-- Top-level block strings of `html_to_markdown` (scraper.py lines
113-118): render each direct element child of the content node at indent
level 0, keeping only non-empty results (text children are ignored). -/
def topBlocksL : NodeList → List String
  | .nil => []
  | .cons (Node.elem t a cc) rest =>
    (let md := block_to_markdown (.elem t a cc) 0
     if md = "" then [] else [md])
    ++ topBlocksL rest
  | .cons (Node.text _) rest => topBlocksL rest

/-- Top-level block strings of a content node. -/
def top_blocks : Node → List String
  | .text _ => []
  | .elem _ _ c => topBlocksL c

/-- Characters counted as indentation by `textwrap.dedent`. -/
def isIndentChar (c : Char) : Bool := c == ' ' || c == '\t'

/-- Python `text.split('\n')` over a character list. -/
def splitNL : List Char → List (List Char)
  | [] => [[]]
  | c :: rest =>
    if c = '\n' then [] :: splitNL rest
    else
      match splitNL rest with
      | [] => [[c]]
      | line :: more => (c :: line) :: more

/-- Rejoining of `splitNL`'s lines with `'\n'`. -/
def joinNL : List (List Char) → List Char
  | [] => []
  | [l] => l
  | l :: rest => l ++ '\n' :: joinNL rest

/-- Detection of a line that consists solely of spaces/tabs (the
`^[ \t]+$` pattern of `textwrap.dedent`, which requires at least one
character). -/
def isWsOnly (line : List Char) : Bool :=
  !line.isEmpty && line.all isIndentChar

/-- Detection of a line with content: some character that is not a space
or tab (the `(^[ \t]*)(?:[^ \t\n])` pattern of `textwrap.dedent`). -/
def hasContent (line : List Char) : Bool :=
  line.any (fun c => !(isIndentChar c))

/-- Leading space/tab run of a line. -/
def lineIndent (line : List Char) : List Char := line.takeWhile isIndentChar

/-- Longest common prefix of two character lists (the margin-narrowing
loop of `textwrap.dedent`). -/
def lcpChars : List Char → List Char → List Char
  | a :: as, b :: bs => if a = b then a :: lcpChars as bs else []
  | _, _ => []

/-- Margin of `textwrap.dedent`: the fold of the common-prefix narrowing
over the indents of all content lines (`none` when there is none). -/
def marginOf (indents : List (List Char)) : Option (List Char) :=
  match indents with
  | [] => none
  | i :: rest => some (rest.foldl lcpChars i)

/-- Test that `p` is a prefix of `l`. -/
def startsWithChars : List Char → List Char → Bool
  | [], _ => true
  | _ :: _, [] => false
  | p :: ps, c :: cs => p == c && startsWithChars ps cs

/-- Removal of the margin from one line (the `(?m)^margin` substitution
applies exactly to the lines that start with the margin). -/
def dropMargin (m : List Char) (line : List Char) : List Char :=
  if startsWithChars m line then line.drop m.length else line

/-- Python `textwrap.dedent` (as used on scraper.py line 120): lines of
only spaces/tabs are emptied; the longest common space/tab margin of the
remaining content lines is removed from every line that starts with it. -/
def dedent (text : String) : String :=
  let lines0 := splitNL text.data
  let lines := lines0.map (fun l => if isWsOnly l then [] else l)
  let indents := (lines.filter hasContent).map lineIndent
  let lines2 :=
    match marginOf indents with
    | some m => if m = [] then lines else lines.map (dropMargin m)
    | none => lines
  String.mk (joinNL lines2)

/-- Document assembler `html_to_markdown` (scraper.py lines 111-120):
locate the content node, render its direct element children, join the
non-empty block strings with `"\n"`, dedent, strip, and append one
trailing newline. -/
def html_to_markdown (doc : NodeList) : Except String String :=
  match extract_main_content doc with
  | .error e => .error e
  | .ok content =>
    let markdown := joinSep "\n" (top_blocks content)
    .ok (pyStrip (dedent markdown) ++ "\n")

/-!
Helper lemmas about the embedded string primitives.
-/

/-- Nonemptiness of a string with a non-empty middle factor. -/
theorem append3_ne_empty (a b c : String) (hb : b.data ≠ []) : a ++ b ++ c ≠ "" := by
  intro h
  have : (a ++ b ++ c).data = [] := by rw [h]
  simp only [String.data_append] at this
  rcases List.append_eq_nil.mp this with ⟨h1, -⟩
  exact hb (List.append_eq_nil.mp h1).2

/-- Nonemptiness of a string with a non-empty final factor. -/
theorem append_ne_empty_right (a b : String) (hb : b.data ≠ []) : a ++ b ≠ "" := by
  intro h
  have : (a ++ b).data = [] := by rw [h]
  simp only [String.data_append] at this
  exact hb (List.append_eq_nil.mp this).2

/-- Concatenation is unchanged by dropping empty strings. -/
theorem concatList_filter_empty (l : List String) :
    concatList (l.filter (fun s => !(s == ""))) = concatList l := by
  induction l with
  | nil => rfl
  | cons s rest ih =>
    by_cases hs : s = ""
    · subst hs
      simpa [List.filter, concatList] using ih
    · have : (s == "") = false := beq_eq_false_iff_ne.mpr hs
      simp [List.filter, this, concatList, ih]

/-- Head of a `dropWhile` never satisfies the dropped predicate. -/
theorem head?_dropWhile_false {α} (p : α → Bool) (l : List α) (c : α)
    (h : (l.dropWhile p).head? = some c) : p c = false := by
  induction l with
  | nil => simp [List.dropWhile] at h
  | cons x xs ih =>
    by_cases hx : p x = true
    · rw [List.dropWhile_cons_of_pos hx] at h
      exact ih h
    · rw [List.dropWhile_cons_of_neg hx] at h
      simp only [List.head?_cons, Option.some.injEq] at h
      subst h
      exact Bool.eq_false_iff.mpr hx

/-- Result of `pyStrip` never ends in a whitespace character. -/
theorem pyStrip_getLast_not_space (s : String) (c : Char)
    (h : (pyStrip s).data.getLast? = some c) : isPySpace c = false := by
  unfold pyStrip at h
  rw [show (String.mk (((s.data.dropWhile isPySpace).reverse.dropWhile isPySpace).reverse)).data
        = ((s.data.dropWhile isPySpace).reverse.dropWhile isPySpace).reverse from rfl] at h
  rw [List.getLast?_eq_head?_reverse, List.reverse_reverse] at h
  exact head?_dropWhile_false _ _ _ h

/-- A `find?` for the first `some` entry returns the entry at position
`i` when that entry is `some` and every earlier entry is `none`. -/
theorem find?_first_some {α} (l : List (Option α)) (i : Nat) (n : α)
    (h : l[i]? = some (some n)) (hprev : ∀ j, j < i → l[j]? = some none) :
    l.find? Option.isSome = some (some n) := by
  induction l generalizing i with
  | nil => simp at h
  | cons x xs ih =>
    cases i with
    | zero =>
      simp only [List.getElem?_cons_zero, Option.some.injEq] at h
      subst h
      simp [List.find?]
    | succ i =>
      have hx : x = none := by
        have h0 := hprev 0 (Nat.succ_pos i)
        simpa using h0
      subst hx
      simp only [List.getElem?_cons_succ] at h
      rw [List.find?]
      simp only [Option.isSome_none]
      exact ih i h (fun j hj => by
        have := hprev (j + 1) (Nat.succ_lt_succ hj)
        simpa using this)

/-- Data of a non-empty string is a non-empty list. -/
theorem str_data_ne (s : String) (h : s ≠ "") : s.data ≠ [] := by
  intro hd
  exact h (String.ext (by simp [hd]))

/-- A string ending in a newline is never empty (the shape tested by the
renderer's empty-line filter for paragraph and heading lines). -/
theorem line_nl_ne_empty (s : String) : (s ++ "\n" == "") = false :=
  beq_eq_false_iff_ne.mpr (append_ne_empty_right s "\n" (by decide))

/-- Last entry of a separator join is a suffix of the join. -/
theorem joinSep_data_suffix (sep : String) (lines : List String) (l : String)
    (h : lines.getLast? = some l) : l.data <:+ (joinSep sep lines).data := by
  induction lines with
  | nil => simp at h
  | cons x rest ih =>
    cases rest with
    | nil =>
      simp at h
      subst h
      exact List.suffix_refl _
    | cons y t =>
      rw [List.getLast?_cons_cons] at h
      have hs := ih h
      have hstep : (joinSep sep (y :: t)).data <:+ (joinSep sep (x :: y :: t)).data := by
        rw [show joinSep sep (x :: y :: t) = x ++ sep ++ joinSep sep (y :: t) from rfl,
          String.data_append]
        exact List.suffix_append _ _
      exact hs.trans hstep

/-- Last character of a separator join with a non-empty last entry. -/
theorem joinSep_data_getLast (sep : String) (lines : List String) (l : String)
    (h : lines.getLast? = some l) (hl : l.data ≠ []) :
    (joinSep sep lines).data.getLast? = l.data.getLast? := by
  obtain ⟨t, ht⟩ := joinSep_data_suffix sep lines l h
  rw [← ht, List.getLast?_append]
  cases hx : l.data.getLast? with
  | none => exact absurd (List.getLast?_eq_none_iff.mp hx) hl
  | some a => simp

/-- A list item line — indent, then a bullet ending in a space, then
stripped content — is non-empty and never ends in a newline. -/
theorem item_line_good (ind bullet content : String)
    (hb : bullet.data.getLast? = some ' ') :
    (ind ++ bullet ++ pyStrip content) ≠ "" ∧
    ∀ ch, (ind ++ bullet ++ pyStrip content).data.getLast? = some ch → ch ≠ '\n' := by
  have hbne : bullet.data ≠ [] := by
    intro h0
    rw [h0] at hb
    simp at hb
  refine ⟨append3_ne_empty ind bullet (pyStrip content) hbne, ?_⟩
  intro ch hch hEq
  subst hEq
  rw [String.data_append, List.getLast?_append] at hch
  cases hpc : (pyStrip content).data.getLast? with
  | some a =>
    rw [hpc, Option.or_some, Option.some.injEq] at hch
    have ha := pyStrip_getLast_not_space content a hpc
    rw [hch] at ha
    simp [isPySpace] at ha
  | none =>
    rw [hpc, Option.none_or, String.data_append, List.getLast?_append, hb, Option.or_some] at hch
    simp at hch

/-- Every line produced by `listItemLines` is non-empty and never ends
in a newline. -/
theorem listItemLines_good :
    ∀ (ordered : Bool) (c : NodeList) (lvl idx : Nat),
      ∀ line ∈ listItemLines ordered c lvl idx,
        line ≠ "" ∧ ∀ ch, line.data.getLast? = some ch → ch ≠ '\n'
  | ordered, .nil, lvl, idx => by
    intro line hline
    simp [listItemLines] at hline
  | ordered, .cons (Node.text s) rest, lvl, idx => by
    intro line hline
    rw [show listItemLines ordered (.cons (Node.text s) rest) lvl idx
          = listItemLines ordered rest lvl idx from rfl] at hline
    exact listItemLines_good ordered rest lvl idx line hline
  | ordered, .cons (Node.elem t la lc) rest, lvl, idx => by
    intro line hline
    by_cases ht : t = "li"
    · subst ht
      rw [show listItemLines ordered (.cons (Node.elem "li" la lc) rest) lvl idx
            = (indentStr lvl ++ (if ordered then Nat.repr idx ++ ". " else "- ")
                ++ pyStrip (concatList (liParts lc lvl)))
              :: listItemLines ordered rest lvl (idx + 1) from by
            simp [listItemLines]] at hline
      rcases List.mem_cons.mp hline with h | h
      · subst h
        apply item_line_good
        cases ordered with
        | false => rfl
        | true =>
          rw [show ((if true then Nat.repr idx ++ ". " else "- ") : String)
                = Nat.repr idx ++ ". " from rfl, String.data_append, List.getLast?_append]
          rfl
      · exact listItemLines_good ordered rest lvl (idx + 1) line h
    · rw [show listItemLines ordered (.cons (Node.elem t la lc) rest) lvl idx
            = listItemLines ordered rest lvl idx from by
          simp [listItemLines, ht]] at hline
      exact listItemLines_good ordered rest lvl idx line hline

/-- A " | " join of entries that never end in whitespace never ends in a
newline (the separator itself ends in a space). -/
theorem joinSep_cells_no_nl :
    ∀ (parts : List String),
      (∀ p ∈ parts, ∀ ch, p.data.getLast? = some ch → isPySpace ch = false) →
      ∀ ch, (joinSep " | " parts).data.getLast? = some ch → ch ≠ '\n'
  | [], _ => by
    intro ch hch
    simp [joinSep] at hch
  | [x], hp => by
    intro ch hch hEq
    subst hEq
    have hx := hp x (List.mem_singleton.mpr rfl) '\n' hch
    simp [isPySpace] at hx
  | x :: y :: t, hp => by
    intro ch hch hEq
    subst hEq
    rw [show joinSep " | " (x :: y :: t) = x ++ " | " ++ joinSep " | " (y :: t) from rfl,
      String.data_append, List.getLast?_append] at hch
    cases hR : (joinSep " | " (y :: t)).data.getLast? with
    | some a =>
      rw [hR, Option.or_some, Option.some.injEq] at hch
      subst hch
      exact joinSep_cells_no_nl (y :: t)
        (fun p h2 => hp p (List.mem_cons_of_mem x h2)) '\n' hR rfl
    | none =>
      rw [hR, Option.none_or, String.data_append, List.getLast?_append,
        show (" | " : String).data.getLast? = some ' ' from rfl, Option.or_some] at hch
      simp at hch

/-- The rendered cell line of one table row never ends in a newline. -/
theorem rowCells_no_nl (row : Node) :
    ∀ ch, (joinSep " | " (rowCells row)).data.getLast? = some ch → ch ≠ '\n' := by
  apply joinSep_cells_no_nl
  intro p hp2 ch hch
  cases row with
  | text s => simp [rowCells] at hp2
  | elem t a c =>
    simp only [rowCells] at hp2
    rcases List.mem_map.mp hp2 with ⟨cell, -, hcell⟩
    rw [← hcell] at hch
    exact pyStrip_getLast_not_space _ ch hch

/-- The `---` separator line of a rendered table never ends in a
newline. -/
theorem sepLine_no_nl (header : List String) :
    ∀ ch, (joinSep " | " (header.map fun _ => "---")).data.getLast? = some ch → ch ≠ '\n' := by
  apply joinSep_cells_no_nl
  intro p hp2 ch hch
  rcases List.mem_map.mp hp2 with ⟨-, -, hcell⟩
  rw [← hcell, show ("---" : String).data.getLast? = some '-' from rfl,
    Option.some.injEq] at hch
  rw [← hch]
  decide

/-- Every line of `tableLines` never ends in a newline. -/
theorem tableLines_good (node : Node) :
    ∀ line ∈ tableLines node, ∀ ch, line.data.getLast? = some ch → ch ≠ '\n' := by
  intro line hline
  cases node with
  | text s => simp [tableLines] at hline
  | elem t a c =>
    simp only [tableLines] at hline
    rcases htd : (trsL c).map rowCells with - | ⟨header, rest⟩
    · rw [htd] at hline
      simp at hline
    · rw [htd] at hline
      have hline2 : line = joinSep " | " header
          ∨ line = joinSep " | " (header.map fun _ => "---")
          ∨ line ∈ rest.map (joinSep " | ") ∨ line = "" := by
        simpa using hline
      rcases hline2 with h | h | h | h
      · subst h
        have hmem : header ∈ (trsL c).map rowCells := by
          rw [htd]
          exact List.mem_cons_self _ _
        rcases List.mem_map.mp hmem with ⟨row, -, hrow⟩
        rw [← hrow]
        exact rowCells_no_nl row
      · subst h
        exact sepLine_no_nl header
      · rcases List.mem_map.mp h with ⟨r, hrmem, hr⟩
        have hmem : r ∈ (trsL c).map rowCells := by
          rw [htd]
          exact List.mem_cons_of_mem _ hrmem
        rcases List.mem_map.mp hmem with ⟨row, -, hrow⟩
        rw [← hr, ← hrow]
        exact rowCells_no_nl row
      · subst h
        intro ch hch
        simp at hch

/-- Joined non-empty lines that never end in a newline: the last line is
a suffix of the join, and the join never ends in a newline. -/
theorem joinSep_good (lines : List String)
    (hgood : ∀ line ∈ lines, line ≠ "" ∧ ∀ ch, line.data.getLast? = some ch → ch ≠ '\n') :
    (∀ l, lines.getLast? = some l → l.data <:+ (joinSep "\n" lines).data) ∧
    (∀ ch, (joinSep "\n" lines).data.getLast? = some ch → ch ≠ '\n') := by
  constructor
  · intro l hl
    exact joinSep_data_suffix _ _ _ hl
  · intro ch hch
    rcases hLL : lines.getLast? with - | l
    · rw [List.getLast?_eq_none_iff.mp hLL] at hch
      simp [joinSep] at hch
    · obtain ⟨hne, hnl⟩ := hgood l (List.mem_of_getLast?_eq_some hLL)
      rw [joinSep_data_getLast "\n" lines l hLL (str_data_ne l hne)] at hch
      exact hnl ch hch

/-- The two list branches of the block renderer: the appended
end-of-list marker is dropped by the empty-line filter, leaving the item
lines joined by single newlines. -/
theorem list_block_eq (name : String) (a : List (String × String)) (c : NodeList) (lvl : Nat)
    (hname : name = "ul" ∨ name = "ol") :
    block_to_markdown (Node.elem name a c) lvl
      = joinSep "\n" (listItemLines (name = "ol") c lvl 1) := by
  have hfil : ∀ ob : Bool, (listItemLines ob c lvl 1).filter (fun x => !(x == ""))
      = listItemLines ob c lvl 1 := fun ob =>
    List.filter_eq_self.mpr (fun l hl => by
      simp [beq_eq_false_iff_ne.mpr (listItemLines_good ob c lvl 1 l hl).1])
  rcases hname with h | h <;> subst h <;>
    simp [block_to_markdown, List.filter_append, hfil, List.filter]

/-!
Concrete example documents used by the claim witnesses and
counterexamples.
-/

/-- Document with all four candidate containers present. -/
def docAll : NodeList :=
  nl [Node.elem "article" [] (nl [Node.text "w"]),
      Node.elem "main" [] (nl [Node.text "x"]),
      Node.elem "div" [("id", "content")] (nl [Node.text "y"]),
      Node.elem "body" [] (nl [Node.text "z"])]

/-- Document with `main`, `div#content` and `body` but no `article`. -/
def docNoArticle : NodeList :=
  nl [Node.elem "main" [] (nl [Node.text "x"]),
      Node.elem "div" [("id", "content")] (nl [Node.text "y"]),
      Node.elem "body" [] (nl [Node.text "z"])]

/-- Document with `div#content` and `body` only. -/
def docDivBody : NodeList :=
  nl [Node.elem "div" [("id", "content")] (nl [Node.text "y"]),
      Node.elem "body" [] (nl [Node.text "z"])]

/-- Document with a `body` only. -/
def docBodyOnly : NodeList :=
  nl [Node.elem "body" [] (nl [Node.text "z"])]

/-- Document with a `div#content` only. -/
def docDivOnly : NodeList :=
  nl [Node.elem "div" [("id", "content")] (nl [Node.text "y"])]

/-- Document whose first `article` element has no children, next to a
non-empty `main` element. -/
def docEmptyArticle : NodeList :=
  nl [Node.elem "article" [] NodeList.nil,
      Node.elem "main" [] (nl [Node.text "x"])]

/-- Document with a non-`div` element carrying `id="content"`, and a
`body`. -/
def docSpanContent : NodeList :=
  nl [Node.elem "span" [("id", "content")] (nl [Node.text "x"]),
      Node.elem "body" [] (nl [Node.text "y"])]

/-- Claim C1.  For every document containing at least one element named
"article", the content locator (and hence convert) selects the first
"article" element as the content container, in preference to any
co-present "main" element, element with identifier "content", or "body"
element; the four candidates are tried in that fixed order and the first
that exists wins. -/
theorem C1_candidate_priority :
    (∀ doc a, findTagL "article" doc = some a →
      extract_main_content doc = Except.ok a) ∧
    (∀ doc a, findTagL "article" doc = none → findTagL "main" doc = some a →
      extract_main_content doc = Except.ok a) ∧
    (∀ doc a, findTagL "article" doc = none → findTagL "main" doc = none →
      findDivContentL doc = some a → extract_main_content doc = Except.ok a) ∧
    (∀ doc a, findTagL "article" doc = none → findTagL "main" doc = none →
      findDivContentL doc = none → findTagL "body" doc = some a →
      extract_main_content doc = Except.ok a) := by
  refine ⟨?_, ?_, ?_, ?_⟩
  · intro doc a h
    simp [extract_main_content, candidates, h, List.find?]
  · intro doc a h1 h2
    simp [extract_main_content, candidates, h1, h2, List.find?]
  · intro doc a h1 h2 h3
    simp [extract_main_content, candidates, h1, h2, h3, List.find?]
  · intro doc a h1 h2 h3 h4
    simp [extract_main_content, candidates, h1, h2, h3, h4, List.find?]

/-- Witness for C1: each of the four priority cases applied to a
concrete document. -/
theorem C1_candidate_priority_witness :
    extract_main_content docAll = Except.ok (Node.elem "article" [] (nl [Node.text "w"])) ∧
    extract_main_content docNoArticle = Except.ok (Node.elem "main" [] (nl [Node.text "x"])) ∧
    extract_main_content docDivBody
      = Except.ok (Node.elem "div" [("id", "content")] (nl [Node.text "y"])) ∧
    extract_main_content docBodyOnly = Except.ok (Node.elem "body" [] (nl [Node.text "z"])) :=
  ⟨C1_candidate_priority.1 docAll _ rfl,
   C1_candidate_priority.2.1 docNoArticle _ rfl rfl,
   C1_candidate_priority.2.2.1 docDivBody _ rfl rfl rfl,
   C1_candidate_priority.2.2.2 docBodyOnly _ rfl rfl rfl rfl⟩

/-- Failure of the content locator always carries the fixed error
message. -/
theorem extract_error_msg (doc : NodeList) (e : String)
    (h : extract_main_content doc = Except.error e) : e = contentErrMsg := by
  unfold extract_main_content at h
  rcases hf : (candidates doc).find? Option.isSome with - | x
  · rw [hf] at h
    simp at h
    exact h.symm
  · rcases x with - | n
    · rw [hf] at h
      simp at h
      exact h.symm
    · rw [hf] at h
      simp at h

/-- Document whose only element is a `<span id="content">`, with no
`article`, no `main` and no `body`. -/
def docSpanOnly : NodeList :=
  nl [Node.elem "span" [("id", "content")] (nl [Node.text "x"])]

/-- Counterexample to claim C2: in a body-less document whose only
element carries the identifier "content" on a non-`div` tag, the claim's
third candidate ("an element with identifier content", any tag name)
exists, yet the locator — whose third candidate is
`soup.find("div", id="content")` — finds none of its four candidates and
`convert` raises the content-not-found error. -/
theorem C2_counterexample :
    specFindIdContentL docSpanOnly
      = some (Node.elem "span" [("id", "content")] (nl [Node.text "x"])) ∧
    findTagL "article" docSpanOnly = none ∧
    findTagL "main" docSpanOnly = none ∧
    findTagL "body" docSpanOnly = none ∧
    extract_main_content docSpanOnly = Except.error contentErrMsg ∧
    html_to_markdown docSpanOnly = Except.error contentErrMsg :=
  ⟨rfl, rfl, rfl, rfl, rfl, rfl⟩

/-- Claim C2, amended.  `convert` raises the content-not-found error
(`NotFoundError`, the `ValueError` of the code) if and only if none of
the four candidate containers as implemented — an "article" element, a
"main" element, a `div` element with identifier "content", a "body"
element — exist in the supplied tree; for every document in which at
least one of these exists, `convert` does not fail.  (An element of any
other tag name with identifier "content" is not a candidate.) -/
theorem C2_error_iff_no_candidate (doc : NodeList) :
    ((∃ e, html_to_markdown doc = Except.error e) ↔
      extract_main_content doc = Except.error contentErrMsg) ∧
    (extract_main_content doc = Except.error contentErrMsg ↔
      (findTagL "article" doc = none ∧ findTagL "main" doc = none ∧
       findDivContentL doc = none ∧ findTagL "body" doc = none)) := by
  constructor
  · constructor
    · rintro ⟨e, he⟩
      cases h : extract_main_content doc with
      | ok content =>
        unfold html_to_markdown at he
        rw [h] at he
        simp at he
      | error msg =>
        rw [extract_error_msg doc msg h]
    · intro h
      refine ⟨contentErrMsg, ?_⟩
      unfold html_to_markdown
      rw [h]
  · cases hA : findTagL "article" doc <;>
      cases hM : findTagL "main" doc <;>
        cases hD : findDivContentL doc <;>
          cases hB : findTagL "body" doc <;>
    simp [extract_main_content, candidates, hA, hM, hD, hB, List.find?, contentErrMsg]

/-- Single-item unordered list `<ul><li>A</li></ul>`. -/
def ulA : Node := Node.elem "ul" [] (nl [Node.elem "li" [] (nl [Node.text "A"])])

/-- Two-row table `<table><tr><th>A</th><th>B</th></tr>
<tr><td>1</td><td>2</td></tr></table>`. -/
def tableEx : Node :=
  Node.elem "table" []
    (nl [Node.elem "tr" [] (nl [Node.elem "th" [] (nl [Node.text "A"]),
                                Node.elem "th" [] (nl [Node.text "B"])]),
         Node.elem "tr" [] (nl [Node.elem "td" [] (nl [Node.text "1"]),
                                Node.elem "td" [] (nl [Node.text "2"])])])

/-- Counterexample to claim C3: the rendered non-empty list and the
rendered two-row table both end with the last item/row line itself — the
final character is a letter or digit, not a newline — so neither ends
with a trailing blank line marker. -/
theorem C3_counterexample :
    block_to_markdown ulA 0 = "- A" ∧
    (block_to_markdown ulA 0).data.getLast? = some 'A' ∧
    block_to_markdown tableEx 0 = "A | B\n--- | ---\n1 | 2" ∧
    (block_to_markdown tableEx 0).data.getLast? = some '2' :=
  ⟨rfl, rfl, rfl, rfl⟩

/-- Claim C3, amended.  The empty-string end-of-list / end-of-table
marker appended after the items/rows is removed again by the final
`filter(None, lines)` join, so a rendered list or table block never ends
with a newline or blank line: a list block is its item lines joined by
single newlines and ends with the last item line, and a table block is
its non-empty table lines joined by single newlines and ends with its
last emitted line (the final data row, or the `---` separator when there
are no data rows); rendered paragraphs and headings end with exactly one
newline character (their text is stripped, so it cannot itself end with
a newline). -/
theorem C3_amended :
    (∀ name a c lvl, (name = "ul" ∨ name = "ol") →
      block_to_markdown (Node.elem name a c) lvl
          = joinSep "\n" (listItemLines (name = "ol") c lvl 1) ∧
        (∀ l, (listItemLines (name = "ol") c lvl 1).getLast? = some l →
          l.data <:+ (block_to_markdown (Node.elem name a c) lvl).data) ∧
        (∀ ch, (block_to_markdown (Node.elem name a c) lvl).data.getLast? = some ch →
          ch ≠ '\n')) ∧
    (∀ a c lvl,
      block_to_markdown (Node.elem "table" a c) lvl
          = joinSep "\n" ((tableLines (Node.elem "table" a c)).filter (fun x => !(x == ""))) ∧
        (∀ l, ((tableLines (Node.elem "table" a c)).filter (fun x => !(x == ""))).getLast?
            = some l →
          l.data <:+ (block_to_markdown (Node.elem "table" a c) lvl).data) ∧
        (∀ ch, (block_to_markdown (Node.elem "table" a c) lvl).data.getLast? = some ch →
          ch ≠ '\n')) ∧
    (∀ a c lvl, pyStrip (inline_to_markdown (Node.elem "p" a c)) ≠ "" →
      block_to_markdown (Node.elem "p" a c) lvl
        = pyStrip (inline_to_markdown (Node.elem "p" a c)) ++ "\n") ∧
    (∀ name a c lvl,
      (name = "h1" ∨ name = "h2" ∨ name = "h3" ∨ name = "h4" ∨ name = "h5" ∨ name = "h6") →
      block_to_markdown (Node.elem name a c) lvl
        = hashes (headingLevel name) ++ " "
            ++ pyStrip (inline_to_markdown (Node.elem name a c)) ++ "\n") ∧
    (∀ s ch, (pyStrip s).data.getLast? = some ch → isPySpace ch = false) := by
  refine ⟨?_, ?_, ?_, ?_, fun s ch h => pyStrip_getLast_not_space s ch h⟩
  · intro name a c lvl hname
    have heq := list_block_eq name a c lvl hname
    obtain ⟨h1, h2⟩ := joinSep_good _ (listItemLines_good (name = "ol") c lvl 1)
    refine ⟨heq, ?_, ?_⟩
    · intro l hl
      rw [heq]
      exact h1 l hl
    · intro ch hch
      rw [heq] at hch
      exact h2 ch hch
  · intro a c lvl
    have heq : block_to_markdown (Node.elem "table" a c) lvl
        = joinSep "\n" ((tableLines (Node.elem "table" a c)).filter (fun x => !(x == ""))) := by
      simp [block_to_markdown]
    have hgood : ∀ line ∈ (tableLines (Node.elem "table" a c)).filter (fun x => !(x == "")),
        line ≠ "" ∧ ∀ ch, line.data.getLast? = some ch → ch ≠ '\n' := by
      intro line hl
      have hm := List.mem_filter.mp hl
      exact ⟨by simpa using hm.2, tableLines_good _ line hm.1⟩
    obtain ⟨h1, h2⟩ := joinSep_good _ hgood
    refine ⟨heq, ?_, ?_⟩
    · intro l hl
      rw [heq]
      exact h1 l hl
    · intro ch hch
      rw [heq] at hch
      exact h2 ch hch
  · intro a c lvl h
    simp [block_to_markdown, h, List.filter, joinSep, line_nl_ne_empty]
  · intro name a c lvl hname
    rcases hname with h | h | h | h | h | h <;> subst h <;>
      simp [block_to_markdown, List.filter, joinSep, line_nl_ne_empty]

/-- Witness for C3 (amended): the list equation at a one-item list, the
no-trailing-newline fact at the concrete two-row table, the paragraph
and heading equations, and the no-trailing-whitespace fact, each applied
at concrete inputs. -/
theorem C3_amended_witness :
    block_to_markdown (Node.elem "ul" [] (nl [Node.elem "li" [] (nl [Node.text "A"])])) 0
        = joinSep "\n"
            (listItemLines (("ul" : String) = "ol")
              (nl [Node.elem "li" [] (nl [Node.text "A"])]) 0 1) ∧
    ('2' : Char) ≠ '\n' ∧
    block_to_markdown (Node.elem "p" [] (nl [Node.text " hi "])) 0
        = pyStrip (inline_to_markdown (Node.elem "p" [] (nl [Node.text " hi "]))) ++ "\n" ∧
    block_to_markdown (Node.elem "h2" [] (nl [Node.text "T"])) 0
        = hashes (headingLevel "h2") ++ " "
            ++ pyStrip (inline_to_markdown (Node.elem "h2" [] (nl [Node.text "T"]))) ++ "\n" ∧
    isPySpace 'i' = false :=
  ⟨(C3_amended.1 "ul" [] (nl [Node.elem "li" [] (nl [Node.text "A"])]) 0 (Or.inl rfl)).1,
   (C3_amended.2.1 []
      (nl [Node.elem "tr" [] (nl [Node.elem "th" [] (nl [Node.text "A"]),
             Node.elem "th" [] (nl [Node.text "B"])]),
           Node.elem "tr" [] (nl [Node.elem "td" [] (nl [Node.text "1"]),
             Node.elem "td" [] (nl [Node.text "2"])])]) 0).2.2 '2' rfl,
   C3_amended.2.2.1 [] (nl [Node.text " hi "]) 0 (by decide),
   C3_amended.2.2.2.1 "h2" [] (nl [Node.text "T"]) 0 (Or.inr (Or.inl rfl)),
   C3_amended.2.2.2.2 " hi " 'i' (by decide)⟩

/-- Claim C4.  Converting a document whose only content container is an
empty body element (no children, as in `<body></body>`) succeeds without
raising any error and returns the empty document consisting of exactly
one trailing newline character: a childless `body` is still a candidate
(a BeautifulSoup tag is truthy even without contents), it yields no
blocks, and the assembler appends the single final newline. -/
theorem C4_empty_body (attrs : List (String × String)) :
    html_to_markdown (nl [Node.elem "body" attrs NodeList.nil]) = Except.ok "\n" := by
  have hA : findTagL "article" (nl [Node.elem "body" attrs NodeList.nil]) = none := by
    simp [nl, findTagL, findTagN]
  have hM : findTagL "main" (nl [Node.elem "body" attrs NodeList.nil]) = none := by
    simp [nl, findTagL, findTagN]
  have hD : findDivContentL (nl [Node.elem "body" attrs NodeList.nil]) = none := by
    simp [nl, findDivContentL, findDivContentN]
  have hB : findTagL "body" (nl [Node.elem "body" attrs NodeList.nil])
      = some (Node.elem "body" attrs NodeList.nil) := by
    simp [nl, findTagL, findTagN]
  have hx : extract_main_content (nl [Node.elem "body" attrs NodeList.nil])
      = Except.ok (Node.elem "body" attrs NodeList.nil) := by
    simp [extract_main_content, candidates, hA, hM, hD, hB, List.find?]
  unfold html_to_markdown
  rw [hx]
  rfl

/-- Body node containing one single-item list followed by one
paragraph. -/
def bodyListPara : Node :=
  Node.elem "body" [] (nl [ulA, Node.elem "p" [] (nl [Node.text "B"])])

/-- Document containing `bodyListPara`. -/
def docListPara : NodeList := nl [bodyListPara]

/-- Body node containing two non-empty paragraphs. -/
def bodyPP : Node :=
  Node.elem "body" [] (nl [Node.elem "p" [] (nl [Node.text "A"]),
                           Node.elem "p" [] (nl [Node.text "B"])])

/-- Document containing `bodyPP`. -/
def docPP : NodeList := nl [bodyPP]

/-- Counterexample to claim C5: in a document whose body holds a list
followed by a paragraph, the two rendered blocks are separated by a
single newline character, not by a blank line (the list block does not
end with a newline of its own, and the assembler's join inserts exactly
one `"\n"`). -/
theorem C5_counterexample :
    html_to_markdown docListPara = Except.ok "- A\nB\n" ∧
    ("- A\nB\n" : String) ≠ "- A\n\nB\n" :=
  ⟨rfl, by decide⟩

/-- Claim C5, amended.  Combined sub-results are joined with a single
newline character, and empty entries are dropped entirely.  Because
rendered paragraphs, headings and fenced code blocks each end with a
newline of their own, consecutive entries of that shape come out
separated by one blank line, but an entry that does not end in a newline
(a list or a table) is separated from the next entry by a single line
break only. -/
theorem C5_amended :
    (∀ doc content, extract_main_content doc = Except.ok content →
      html_to_markdown doc
        = Except.ok (pyStrip (dedent (joinSep "\n" (top_blocks content))) ++ "\n")) ∧
    block_to_markdown
      (Node.elem "div" [] (nl [Node.elem "p" [] (nl [Node.text "A"]),
                               Node.elem "p" [] (nl [Node.text "  "]),
                               Node.elem "p" [] (nl [Node.text "B"])])) 0 = "A\n\nB\n" ∧
    html_to_markdown docPP = Except.ok "A\n\nB\n" := by
  refine ⟨?_, rfl, rfl⟩
  intro doc content h
  unfold html_to_markdown
  rw [h]

/-- Witness for C5 (amended): the general assembler equation applied to
the two-paragraph document. -/
theorem C5_amended_witness :
    html_to_markdown docPP
      = Except.ok (pyStrip (dedent (joinSep "\n" (top_blocks bodyPP))) ++ "\n") :=
  C5_amended.1 docPP bodyPP rfl

/-- Counterexample to claim C6: in a document with no "article" and no
"main" but with a `span` element whose identifier is "content", the
locator does not select that element — the third candidate is restricted
to `div` tags (`soup.find("div", id="content")`), so the `body` fallback
is chosen instead. -/
theorem C6_counterexample :
    extract_main_content docSpanContent = Except.ok (Node.elem "body" [] (nl [Node.text "y"])) ∧
    findTagL "article" docSpanContent = none ∧
    findTagL "main" docSpanContent = none ∧
    attrLookup "id" [("id", "content")] = some "content" ∧
    Node.elem "body" [] (nl [Node.text "y"])
      ≠ Node.elem "span" [("id", "content")] (nl [Node.text "x"]) :=
  ⟨rfl, rfl, rfl, rfl, by decide⟩

/-- Claim C6, amended.  The locator's third candidate matches only `div`
elements: for every document with no "article" and no "main" element
whose first `div` with identifier "content" exists, that `div` is
selected as the content container (an element of any other tag name with
identifier "content" is not a candidate). -/
theorem C6_amended (doc : NodeList) (d : Node)
    (hA : findTagL "article" doc = none) (hM : findTagL "main" doc = none)
    (hD : findDivContentL doc = some d) :
    extract_main_content doc = Except.ok d := by
  simp [extract_main_content, candidates, hA, hM, hD, List.find?]

/-- Witness for C6 (amended): a document holding only a
`div#content`. -/
theorem C6_amended_witness :
    extract_main_content docDivOnly
      = Except.ok (Node.elem "div" [("id", "content")] (nl [Node.text "y"])) :=
  C6_amended docDivOnly _ rfl rfl rfl

/-- Claim C7.  For every "a" element: href is the trimmed href attribute
(empty if absent) and text the trimmed inline rendering of the children;
empty text is replaced by href, and if href is also empty by the literal
"link"; the output is `[text](href)` when href is non-empty and the bare
text otherwise.  An anchor with whitespace-only text and href "http://x"
yields `[http://x](http://x)`; one with empty text and empty href yields
`link`. -/
theorem C7_anchor :
    (∀ attrs children,
      inline_to_markdown (Node.elem "a" attrs children) =
        (let href := pyStrip ((attrLookup "href" attrs).getD "")
         let text := pyStrip (inlineL children)
         if href = "" then (if text = "" then "link" else text)
         else (if text = "" then "[" ++ href ++ "](" ++ href ++ ")"
               else "[" ++ text ++ "](" ++ href ++ ")"))) ∧
    inline_to_markdown (Node.elem "a" [("href", "http://x")] (nl [Node.text "  "]))
      = "[http://x](http://x)" ∧
    inline_to_markdown (Node.elem "a" [] NodeList.nil) = "link" := by
  refine ⟨?_, rfl, rfl⟩
  intro attrs children
  by_cases hh : pyStrip ((attrLookup "href" attrs).getD "") = "" <;>
    by_cases ht : pyStrip (inlineL children) = "" <;>
      simp [inline_to_markdown, hh, ht]

/-- Nested list `<ul><li>A<ul><li>B</li></ul></li></ul>`. -/
def nestedUl : Node :=
  Node.elem "ul" []
    (nl [Node.elem "li" []
      (nl [Node.text "A",
           Node.elem "ul" [] (nl [Node.elem "li" [] (nl [Node.text "B"])])])])

/-- Claim C8.  List indentation is 4 literal spaces per indent level
prefixed to list item lines, and the level is incremented by one for a
list nested inside a list item: the nested example renders at level 0 as
`- A` followed by the 4-space-indented `    - B`, and at level 1 every
item line gains one further 4-space prefix. -/
theorem C8_nested_list_indent :
    block_to_markdown nestedUl 0 = "- A\n    - B" ∧
    block_to_markdown nestedUl 1 = "    - A\n        - B" ∧
    (∀ lvl, (indentStr lvl).length = 4 * lvl) := by
  refine ⟨rfl, rfl, ?_⟩
  intro lvl
  induction lvl with
  | zero => rfl
  | succ k ih =>
    have hstep : indentStr (k + 1) = "    " ++ indentStr k := rfl
    have h4 : ("    " : String).length = 4 := rfl
    rw [hstep, String.length_append, h4, ih]
    omega

/-- Inline code element `<code>a <em>b</em></code>` with two text runs
separated by an element boundary. -/
def codeEx : Node :=
  Node.elem "code" [] (nl [Node.text "a ", Node.elem "em" [] (nl [Node.text "b"])])

/-- Counterexample to claim C9: for a "code" element whose text is split
into several runs, `get_text(strip=True)` strips every run individually,
so the whitespace at the run boundary in `<code>a <em>b</em></code>` is
lost — the output is a backtick-wrapped `ab`, not `a b`. -/
theorem C9_counterexample :
    inline_to_markdown codeEx = "`ab`" ∧ ("`ab`" : String) ≠ "`a b`" :=
  ⟨rfl, by decide⟩

/-- Claim C9, amended.  For every "code" element the inline renderer
outputs a backtick, then the concatenation of the element's descendant
text runs each individually stripped of surrounding whitespace, then a
backtick: whitespace interior to a single run is preserved, whitespace
at run boundaries is discarded. -/
theorem C9_amended :
    (∀ attrs children, inline_to_markdown (Node.elem "code" attrs children)
      = "`" ++ concatList ((stringsL children).map pyStrip) ++ "`") ∧
    inline_to_markdown (Node.elem "code" [] (nl [Node.text "  a  b "])) = "`a  b`" := by
  refine ⟨?_, rfl⟩
  intro attrs children
  simp [inline_to_markdown, get_text_strip, stringsN, concatList_filter_empty]

/-- Counterexample to claim C10: the locator does not skip a
present-but-childless candidate.  In a document whose first "article"
element has no children while a non-empty "main" element is present, the
childless article itself is returned (a BeautifulSoup tag is truthy even
without contents), not the main element. -/
theorem C10_counterexample :
    extract_main_content docEmptyArticle = Except.ok (Node.elem "article" [] NodeList.nil) ∧
    findTagL "main" docEmptyArticle = some (Node.elem "main" [] (nl [Node.text "x"])) ∧
    Node.elem "article" [] NodeList.nil ≠ Node.elem "main" [] (nl [Node.text "x"]) :=
  ⟨rfl, rfl, by decide⟩

/-- Claim C10, amended.  The content locator returns the candidate at
the first position of (first "article", first "main", first div with id
"content", first "body") that exists at all, regardless of whether it
has children: candidates are skipped only when absent (`None`), never
for being childless. -/
theorem C10_amended (doc : NodeList) (i : Nat) (n : Node)
    (h : (candidates doc)[i]? = some (some n))
    (hprev : ∀ j, j < i → (candidates doc)[j]? = some none) :
    extract_main_content doc = Except.ok n := by
  unfold extract_main_content
  rw [find?_first_some (candidates doc) i n h hprev]

/-- Witness for C10 (amended): the third candidate is selected when the
first two are absent. -/
theorem C10_amended_witness :
    extract_main_content docDivOnly
      = Except.ok (Node.elem "div" [("id", "content")] (nl [Node.text "y"])) :=
  C10_amended docDivOnly 2 _ rfl (by decide)
